import Mathlib

/-!
Shallow embedding of the paper-trading application in `src/App.js`.

JavaScript numbers are modelled as rationals (`ℚ`); the one place where
`NaN` is behaviourally relevant (the quantity-input sanitisation
`Math.max(1, Math.floor(parseInt(qty || '1', 10)))` and the subsequent
`cost > cash` comparison) is modelled separately with `Option ℚ`
(`none` = `NaN`), since every JS arithmetic operation propagates `NaN`
and every comparison with `NaN` is `false`.

`Math.random()` and `Date.now()` are modelled as explicit parameters:
a draw `rand : ℚ` with `0 ≤ rand < 1`, and a millisecond timestamp
`time : ℕ`.  JS objects used as string-keyed maps (`holdings`, the
derived price map) are modelled as association lists / lookup functions.
Trade ids are modelled by the numeric value `Date.now() + Math.random()`;
equal sums give equal id strings, and only that direction is used —
no distinctness of ids is derived from the model, since float64
rounding at epoch-scale timestamps collapses distinct draws into the
same double.
-/

set_option autoImplicit false

namespace PaperTrader

/-- `const DEFAULT_SYMBOLS = [...]` (App.js line 7). -/
def DEFAULT_SYMBOLS : List String :=
  ["AAPL","MSFT","TSLA","GOOGL","AMZN","NVDA","RELIANCE.NS","TCS.NS","HDFCBANK.NS"]

/-- `const clamp = (n, lo, hi) => Math.min(Math.max(n, lo), hi)` (line 19). -/
def clamp (n lo hi : ℚ) : ℚ := min (max n lo) hi

/-- A watchlist entry `{ symbol, price }`. -/
structure WatchItem where
  symbol : String
  price : ℚ
deriving Repr, DecidableEq

/-- A holding `{ qty, avg }` for one symbol. -/
structure Position where
  qty : ℤ
  avg : ℚ
deriving Repr, DecidableEq

/-- Trade side, the `side` argument of `doTrade`. -/
inductive Side where
  | BUY
  | SELL
deriving Repr, DecidableEq

/-- `String(Date.now() + Math.random())` (line 132): the id of a trade
record.  Number-to-string conversion is injective on distinct JS
numbers, so the id is modelled by the numeric sum itself. -/
def tradeId (time : ℕ) (rand : ℚ) : ℚ := (time : ℚ) + rand

/-- A history entry `{id, time, side, symbol, qty, price}` (line 132). -/
structure TradeRecord where
  id : ℚ
  time : ℕ
  side : Side
  symbol : String
  qty : ℤ
  price : ℚ
deriving Repr, DecidableEq

/-- `settings: { refreshSecs: 8 }`. -/
structure Settings where
  refreshSecs : ℕ
deriving Repr, DecidableEq

/-- The `holdings` object `sym -> { qty, avg }`, as an association list
(JS object keys are unique; insertion keeps the first position of an
existing key, deletion removes the key). -/
abbrev Holdings := List (String × Position)

/-- `holdings[sym]` lookup. -/
def lookupPos : Holdings → String → Option Position
  | [], _ => none
  | (k, v) :: rest, s => if k = s then some v else lookupPos rest s

/-- `holdings[sym] = p` assignment: overwrite in place, or append a new key. -/
def setPos : Holdings → String → Position → Holdings
  | [], s, p => [(s, p)]
  | (k, v) :: rest, s, p =>
    if k = s then (s, p) :: rest else (k, v) :: setPos rest s p

/-- `delete holdings[sym]`. -/
def erasePos (h : Holdings) (s : String) : Holdings :=
  h.filter (fun e => e.1 ≠ s)

/-- The full application state (line 21): `{cash, watchlist, holdings,
history, settings}`. -/
structure AppState where
  cash : ℚ
  watchlist : List WatchItem
  holdings : Holdings
  history : List TradeRecord
  settings : Settings
deriving Repr, DecidableEq

/-- `initialState` (lines 21–27).  Each watchlist price is
`100 + Math.random() * 200`; the random draws are the parameter
`seed`, indexed by watchlist position. -/
def initialState (seed : ℕ → ℚ) : AppState :=
  { cash := 10000
    watchlist := DEFAULT_SYMBOLS.enum.map
      (fun p => { symbol := p.2, price := 100 + seed p.1 * 200 })
    holdings := []
    history := []
    settings := { refreshSecs := 8 } }

/-- `priceMapFrom(watchlist)` (lines 50–54): builds `sym -> price` by
assigning in order, so the last entry for a symbol wins. -/
def priceMapFrom (watchlist : List WatchItem) (s : String) : Option ℚ :=
  (watchlist.reverse.find? (fun w => w.symbol = s)).map (fun w => w.price)

/-- `pnlForSymbol(sym, holdings, priceMap)` (lines 56–63).  Returns the
pair `(pnl, change)`; `priceMap[sym] ?? 0` is `Option.getD 0`, and the
truthiness test `h.avg ? _ : 0` is `avg ≠ 0` (for non-`NaN` numbers). -/
def pnlForSymbol (sym : String) (holdings : Holdings)
    (priceMap : String → Option ℚ) : ℚ × ℚ :=
  match lookupPos holdings sym with
  | none => (0, 0)
  | some h =>
    let last := (priceMap sym).getD 0
    let pnl := (last - h.avg) * h.qty
    let change := if h.avg = 0 then 0 else (last - h.avg) / h.avg
    (pnl, change)

/-- The `equity` aggregation (lines 96–98): sum of `h.qty * (priceMap[sym] ?? 0)`
over all holdings. -/
def equity (holdings : Holdings) (priceMap : String → Option ℚ) : ℚ :=
  holdings.foldl (fun sum e => sum + e.2.qty * (priceMap e.1).getD 0) 0

/-- `driftPrice(p, v = 0.015)` (lines 44–48), with the `Math.random()`
draw made explicit: `change = (rand * 2 - 1) * v`, `np = p * (1 + change)`,
clamped to `[max(1, p*0.85), p*1.15]`. -/
def driftPrice (p v rand : ℚ) : ℚ :=
  let change := (rand * 2 - 1) * v
  let np := p * (1 + change)
  clamp np (max 1 (p * (85/100))) (p * (115/100))

/-! ### Persistence: `loadState` (lines 33–42)

`AsyncStorage.getItem` either yields no blob (`absent`), a string that
`JSON.parse` rejects (`unparseable`, the `catch` branch), or a parsed
object.  A parsed object is modelled by which of the five top-level
keys it carries; `{ ...initialState, ...parsed }` takes the parsed
value for each key present and the default otherwise. -/

/-- A parsed persisted object: each top-level key of the schema may be
present or missing. -/
structure ParsedBlob where
  cash? : Option ℚ
  watchlist? : Option (List WatchItem)
  holdings? : Option Holdings
  history? : Option (List TradeRecord)
  settings? : Option Settings
deriving Repr, DecidableEq

/-- The three possible outcomes of reading and parsing the stored blob. -/
inductive StoredBlob where
  | absent
  | unparseable
  | parsed (p : ParsedBlob)
deriving Repr, DecidableEq

/-- The shallow merge `{ ...initialState, ...parsed }` (line 38). -/
def mergeOverDefaults (base : AppState) (p : ParsedBlob) : AppState :=
  { cash := p.cash?.getD base.cash
    watchlist := p.watchlist?.getD base.watchlist
    holdings := p.holdings?.getD base.holdings
    history := p.history?.getD base.history
    settings := p.settings?.getD base.settings }

/-- `loadState()` (lines 33–42): default state when the blob is absent
or parsing throws, otherwise the shallow merge over the defaults. -/
def loadState (seed : ℕ → ℚ) : StoredBlob → AppState
  | .absent => initialState seed
  | .unparseable => initialState seed
  | .parsed p => mergeOverDefaults (initialState seed) p

/-! ### `doTrade` (lines 105–135)

The handler reads the quantity input, looks the price up in the price
map (`?? 0`), returns silently when the price is falsy, and otherwise
updates the state inside `setState`.  `Alert.alert` messages are
returned as the `Option String` component.  The quantity `q` here is
the sanitised integer quantity (see `tradeQty` below for the
sanitisation itself, including its `NaN` path). -/

/-- The record pushed by `history.unshift({...})` (line 132). -/
def mkTradeRecord (side : Side) (symbol : String) (q : ℤ) (price : ℚ)
    (time : ℕ) (rand : ℚ) : TradeRecord :=
  { id := tradeId time rand, time := time, side := side, symbol := symbol
    qty := q, price := price }

/-- `doTrade(side)` (lines 105–135) for a numeric sanitised quantity
`q`.  Returns the new state and the alert message, if any. -/
def doTrade (side : Side) (symbol : String) (q : ℤ) (time : ℕ) (rand : ℚ)
    (prev : AppState) : AppState × Option String :=
  let price := (priceMapFrom prev.watchlist symbol).getD 0
  if price = 0 then (prev, none)
  else
    match side with
    | .BUY =>
      let cost := q * price
      if prev.cash < cost then (prev, some "Not enough cash")
      else
        let h := (lookupPos prev.holdings symbol).getD { qty := 0, avg := 0 }
        let newQty := h.qty + q
        let newAvg := if newQty = 0 then price
          else (h.qty * h.avg + q * price) / newQty
        ({ prev with
            holdings := setPos prev.holdings symbol { qty := newQty, avg := newAvg }
            cash := prev.cash - cost
            history := mkTradeRecord .BUY symbol q price time rand :: prev.history },
         none)
    | .SELL =>
      match lookupPos prev.holdings symbol with
      | none => (prev, some "Not enough shares")
      | some h =>
        if h.qty < q then (prev, some "Not enough shares")
        else
          let remaining := h.qty - q
          let holdings :=
            if remaining = 0 then erasePos prev.holdings symbol
            else setPos prev.holdings symbol { qty := remaining, avg := h.avg }
          ({ prev with
              holdings := holdings
              cash := prev.cash + q * price
              history := mkTradeRecord .SELL symbol q price time rand :: prev.history },
           none)

/-! ### Quantity-input sanitisation with `NaN` (line 106)

`const q = Math.max(1, Math.floor(parseInt(qty || '1', 10)))`.
`parseInt` yields `NaN` on a non-numeric string, and both `Math.floor`
and `Math.max` propagate `NaN`; `NaN` is modelled as `none`. -/

/-- A JS number that may be `NaN` (`none`). -/
abbrev JSNum := Option ℚ

/-- JS multiplication: `NaN` propagates. -/
def jsMul : JSNum → JSNum → JSNum
  | some x, some y => some (x * y)
  | _, _ => none

/-- JS `>` comparison: any comparison involving `NaN` is `false`. -/
def jsGt : JSNum → JSNum → Bool
  | some x, some y => decide (y < x)
  | _, _ => false

/-- `Math.floor`: `NaN` propagates. -/
def jsFloor (a : JSNum) : JSNum := a.map (fun q => (q.floor : ℚ))

/-- `Math.max`: returns `NaN` when either argument is `NaN`. -/
def jsMax : JSNum → JSNum → JSNum
  | some x, some y => some (max x y)
  | _, _ => none

/-- Digit run to a natural number. -/
def digitsToNat (cs : List Char) : ℕ :=
  cs.foldl (fun n c => n * 10 + (c.toNat - 48)) 0

/-- JS `parseInt(s, 10)`: skip leading whitespace, optional sign, then
the maximal run of decimal digits; `NaN` when no digit follows. -/
def parseIntJS (s : String) : JSNum :=
  let cs := s.toList.dropWhile Char.isWhitespace
  match cs with
  | '-' :: rest =>
    let ds := rest.takeWhile Char.isDigit
    if ds.isEmpty then none else some (-(digitsToNat ds : ℚ))
  | '+' :: rest =>
    let ds := rest.takeWhile Char.isDigit
    if ds.isEmpty then none else some ((digitsToNat ds : ℚ))
  | _ =>
    let ds := cs.takeWhile Char.isDigit
    if ds.isEmpty then none else some ((digitsToNat ds : ℚ))

/-- Line 106: `Math.max(1, Math.floor(parseInt(qty || '1', 10)))`, with
`qty || '1'` replacing only the empty (falsy) string. -/
def tradeQty (input : String) : JSNum :=
  jsMax (some 1) (jsFloor (parseIntJS (if input = "" then "1" else input)))

/-! ### The controller's operations (lines 82–155) -/

/-- `addSymbolToWatch` (lines 137–144): trim and uppercase, no-op when
blank or already present, otherwise prepend with seed price
`100 + Math.random() * 200`. -/
def addSymbolToWatch (addSym : String) (rand : ℚ) (st : AppState) : AppState :=
  let s := addSym.trim.toUpper
  if s = "" then st
  else if st.watchlist.any (fun w => w.symbol = s) then st
  else { st with watchlist := { symbol := s, price := 100 + rand * 200 } :: st.watchlist }

/-- `removeSymbol` (lines 146–148). -/
def removeSymbol (sym : String) (st : AppState) : AppState :=
  { st with watchlist := st.watchlist.filter (fun w => w.symbol ≠ sym) }

/-- One price tick (lines 84–89): drift every watchlist price with the
default volatility `0.015`, one fresh random draw per entry. -/
def tick (rands : ℕ → ℚ) (st : AppState) : AppState :=
  { st with
      watchlist := st.watchlist.enum.map
        (fun p => { symbol := p.2.symbol, price := driftPrice p.2.price (15/1000) (rands p.1) }) }

/-- The operations the controller can apply to the state: trades
(via `doTrade`), the price tick, watchlist edits, and the confirmed
`resetAll` (line 153, `setState(initialState)`). -/
inductive Op where
  | buy (sym : String) (q : ℤ) (time : ℕ) (rand : ℚ)
  | sell (sym : String) (q : ℤ) (time : ℕ) (rand : ℚ)
  | tick (rands : ℕ → ℚ)
  | addSym (s : String) (rand : ℚ)
  | removeSym (s : String)
  | reset

/-- Apply one operation.  `reset` restores the module-level
`initialState`, whose seed prices were drawn once at startup. -/
def applyOp (seed : ℕ → ℚ) (st : AppState) : Op → AppState
  | .buy s q t r => (doTrade .BUY s q t r st).1
  | .sell s q t r => (doTrade .SELL s q t r st).1
  | .tick rands => tick rands st
  | .addSym s r => addSymbolToWatch s r st
  | .removeSym s => removeSymbol s st
  | .reset => initialState seed

/-- Run a sequence of operations from the initial state. -/
def runOps (seed : ℕ → ℚ) (ops : List Op) : AppState :=
  ops.foldl (applyOp seed) (initialState seed)

/-- The environment constraints under which an operation is issued:
trade quantities are the sanitised `q ≥ 1` (spec precondition, what
line 106 produces for numeric input), and every `Math.random()` draw
lies in `[0, 1)`. -/
def Op.Valid : Op → Prop
  | .buy _ q _ r => 1 ≤ q ∧ 0 ≤ r ∧ r < 1
  | .sell _ q _ r => 1 ≤ q ∧ 0 ≤ r ∧ r < 1
  | .tick rands => ∀ i, 0 ≤ rands i ∧ rands i < 1
  | .addSym _ r => 0 ≤ r ∧ r < 1
  | .removeSym _ => True
  | .reset => True

end PaperTrader

namespace PaperTrader

/-! ### Association-list lemmas for `holdings` -/

theorem lookupPos_setPos_self (h : Holdings) (s : String) (p : Position) :
    lookupPos (setPos h s p) s = some p := by
  induction h with
  | nil => simp [setPos, lookupPos]
  | cons e rest ih =>
    obtain ⟨k, v⟩ := e
    by_cases hk : k = s
    · simp [setPos, hk, lookupPos]
    · simp [setPos, hk, lookupPos, ih]

theorem lookupPos_erasePos_self (h : Holdings) (s : String) :
    lookupPos (erasePos h s) s = none := by
  induction h with
  | nil => simp [erasePos, lookupPos]
  | cons e rest ih =>
    obtain ⟨k, v⟩ := e
    by_cases hk : k = s
    · simpa [erasePos, hk] using ih
    · simpa [erasePos, hk, lookupPos] using ih

/-- C1: a buy of `q ≥ 1` shares at positive price `p` with
`q * p ≤ cash` updates the position to
`⟨oldQty + q, (oldQty*oldAvg + q*p) / (oldQty + q)⟩` (prior position
defaulting to `{qty := 0, avg := 0}`), debits `cash` by exactly `q * p`,
prepends one BUY `TradeRecord` to `history`, and raises no alert. -/
theorem c1_buy_success (prev : AppState) (symbol : String) (q : ℤ) (p : ℚ)
    (old : Position) (time : ℕ) (rand : ℚ)
    (hprice : priceMapFrom prev.watchlist symbol = some p)
    (hp : 0 < p)
    (hq : 1 ≤ q)
    (hold : (lookupPos prev.holdings symbol).getD { qty := 0, avg := 0 } = old)
    (holdq : 0 ≤ old.qty)
    (hcash : (q : ℚ) * p ≤ prev.cash) :
    lookupPos (doTrade .BUY symbol q time rand prev).1.holdings symbol =
      some { qty := old.qty + q
             avg := ((old.qty : ℚ) * old.avg + (q : ℚ) * p) / ((old.qty + q : ℤ) : ℚ) } ∧
    (doTrade .BUY symbol q time rand prev).1.cash = prev.cash - (q : ℚ) * p ∧
    (doTrade .BUY symbol q time rand prev).1.history =
      mkTradeRecord .BUY symbol q p time rand :: prev.history ∧
    (doTrade .BUY symbol q time rand prev).2 = none := by
  have hp0 : p ≠ 0 := ne_of_gt hp
  have hnl : ¬ prev.cash < (q : ℚ) * p := not_lt.mpr hcash
  have hnq : ¬ old.qty + q = 0 := by omega
  simp only [doTrade, hprice, Option.getD_some, if_neg hp0, hold, hnl, if_false,
    if_neg hnq, ite_false]
  simp [lookupPos_setPos_self]

/-- Witness for C1 at the spec's example: buying 10 AAPL at 150 from a
fresh state with cash 10000. -/
theorem c1_buy_success_witness :
    lookupPos (doTrade .BUY "AAPL" 10 0 0
        { cash := 10000, watchlist := [{ symbol := "AAPL", price := 150 }],
          holdings := [], history := [],
          settings := { refreshSecs := 8 } }).1.holdings "AAPL" =
      some { qty := 10, avg := 150 } ∧
    (doTrade .BUY "AAPL" 10 0 0
        { cash := 10000, watchlist := [{ symbol := "AAPL", price := 150 }],
          holdings := [], history := [],
          settings := { refreshSecs := 8 } }).1.cash = 8500 ∧
    (doTrade .BUY "AAPL" 10 0 0
        { cash := 10000, watchlist := [{ symbol := "AAPL", price := 150 }],
          holdings := [], history := [],
          settings := { refreshSecs := 8 } }).1.history =
      [mkTradeRecord .BUY "AAPL" 10 150 0 0] ∧
    (doTrade .BUY "AAPL" 10 0 0
        { cash := 10000, watchlist := [{ symbol := "AAPL", price := 150 }],
          holdings := [], history := [],
          settings := { refreshSecs := 8 } }).2 = none := by
  have h := c1_buy_success
    { cash := 10000, watchlist := [{ symbol := "AAPL", price := 150 }],
      holdings := [], history := [], settings := { refreshSecs := 8 } }
    "AAPL" 10 150 { qty := 0, avg := 0 } 0 0
    (by decide) (by norm_num) (by norm_num) (by decide) (by decide) (by norm_num)
  exact ⟨h.1.trans (by norm_num), h.2.1.trans (by norm_num), h.2.2.1, h.2.2.2⟩

/-- C2: a buy whose cost `q * p` exceeds the available cash fails with
the "Not enough cash" notice and leaves the entire state unchanged
(so in particular no `TradeRecord` is added to `history`). -/
theorem c2_insufficient_cash (prev : AppState) (symbol : String) (q : ℤ) (p : ℚ)
    (time : ℕ) (rand : ℚ)
    (hprice : priceMapFrom prev.watchlist symbol = some p)
    (hp : 0 < p)
    (hq : 1 ≤ q)
    (hcash : prev.cash < (q : ℚ) * p) :
    doTrade .BUY symbol q time rand prev = (prev, some "Not enough cash") := by
  have hp0 : p ≠ 0 := ne_of_gt hp
  simp only [doTrade, hprice, Option.getD_some, if_neg hp0, hcash, if_true, ite_true]

/-- Witness for C2: buying 100 shares at 150 with only 10000 cash. -/
theorem c2_insufficient_cash_witness :
    doTrade .BUY "AAPL" 100 0 0
        { cash := 10000, watchlist := [{ symbol := "AAPL", price := 150 }],
          holdings := [], history := [], settings := { refreshSecs := 8 } } =
      ({ cash := 10000, watchlist := [{ symbol := "AAPL", price := 150 }],
         holdings := [], history := [], settings := { refreshSecs := 8 } },
       some "Not enough cash") :=
  c2_insufficient_cash _ "AAPL" 100 150 0 0 (by decide) (by norm_num) (by norm_num)
    (by norm_num)

/-- C3: a sell of `q` shares when no position exists, or when the
position holds fewer than `q` shares, fails with the "Not enough
shares" notice and leaves the entire state unchanged (so no
`TradeRecord` is added to `history`). -/
theorem c3_insufficient_shares (prev : AppState) (symbol : String) (q : ℤ) (p : ℚ)
    (time : ℕ) (rand : ℚ)
    (hprice : priceMapFrom prev.watchlist symbol = some p)
    (hp : 0 < p)
    (hins : ∀ pos, lookupPos prev.holdings symbol = some pos → pos.qty < q) :
    doTrade .SELL symbol q time rand prev = (prev, some "Not enough shares") := by
  have hp0 : p ≠ 0 := ne_of_gt hp
  cases hl : lookupPos prev.holdings symbol with
  | none => simp only [doTrade, hprice, Option.getD_some, if_neg hp0, hl]
  | some pos =>
    have hlt := hins pos hl
    simp only [doTrade, hprice, Option.getD_some, if_neg hp0, hl, hlt, if_true, ite_true]

/-- Witness for C3: selling 5 shares with no position at all. -/
theorem c3_insufficient_shares_witness :
    doTrade .SELL "AAPL" 5 0 0
        { cash := 10000, watchlist := [{ symbol := "AAPL", price := 150 }],
          holdings := [], history := [], settings := { refreshSecs := 8 } } =
      ({ cash := 10000, watchlist := [{ symbol := "AAPL", price := 150 }],
         holdings := [], history := [], settings := { refreshSecs := 8 } },
       some "Not enough shares") :=
  c3_insufficient_shares _ "AAPL" 5 150 0 0 (by decide) (by norm_num)
    (by intro pos hpos; simp [lookupPos] at hpos)

/-- C4: a successful sell of `q ≤ pos.qty` shares at positive price `p`
removes the position entirely when `pos.qty - q = 0` and otherwise
reduces its `qty` to `pos.qty - q` with `avg` unchanged; in both cases
cash is credited by exactly `q * p` and a SELL `TradeRecord` is
prepended to `history`. -/
theorem c4_sell_success (prev : AppState) (symbol : String) (q : ℤ) (p : ℚ)
    (pos : Position) (time : ℕ) (rand : ℚ)
    (hprice : priceMapFrom prev.watchlist symbol = some p)
    (hp : 0 < p)
    (hpos : lookupPos prev.holdings symbol = some pos)
    (hq : q ≤ pos.qty) :
    (pos.qty - q = 0 →
      lookupPos (doTrade .SELL symbol q time rand prev).1.holdings symbol = none) ∧
    (pos.qty - q ≠ 0 →
      lookupPos (doTrade .SELL symbol q time rand prev).1.holdings symbol =
        some { qty := pos.qty - q, avg := pos.avg }) ∧
    (doTrade .SELL symbol q time rand prev).1.cash = prev.cash + (q : ℚ) * p ∧
    (doTrade .SELL symbol q time rand prev).1.history =
      mkTradeRecord .SELL symbol q p time rand :: prev.history ∧
    (doTrade .SELL symbol q time rand prev).2 = none := by
  have hp0 : p ≠ 0 := ne_of_gt hp
  have hnl : ¬ pos.qty < q := not_lt.mpr hq
  by_cases hr : pos.qty - q = 0
  · simp only [doTrade, hprice, Option.getD_some, if_neg hp0, hpos, hnl, if_false,
      ite_false]
    simp [hr, lookupPos_erasePos_self]
  · simp only [doTrade, hprice, Option.getD_some, if_neg hp0, hpos, hnl, if_false,
      ite_false]
    simp [hr, lookupPos_setPos_self]

/-- Witness for C4 at the spec's example: selling 8 of 10 AAPL at 170
keeps `avg` and leaves 2 shares. -/
theorem c4_sell_success_witness :
    ((10 : ℤ) - 8 = 0 →
      lookupPos (doTrade .SELL "AAPL" 8 0 0
          { cash := 10000, watchlist := [{ symbol := "AAPL", price := 170 }],
            holdings := [("AAPL", { qty := 10, avg := 150 })], history := [],
            settings := { refreshSecs := 8 } }).1.holdings "AAPL" = none) ∧
    ((10 : ℤ) - 8 ≠ 0 →
      lookupPos (doTrade .SELL "AAPL" 8 0 0
          { cash := 10000, watchlist := [{ symbol := "AAPL", price := 170 }],
            holdings := [("AAPL", { qty := 10, avg := 150 })], history := [],
            settings := { refreshSecs := 8 } }).1.holdings "AAPL" =
        some { qty := (10 : ℤ) - 8, avg := 150 }) ∧
    (doTrade .SELL "AAPL" 8 0 0
        { cash := 10000, watchlist := [{ symbol := "AAPL", price := 170 }],
          holdings := [("AAPL", { qty := 10, avg := 150 })], history := [],
          settings := { refreshSecs := 8 } }).1.cash = 10000 + (8 : ℚ) * 170 ∧
    (doTrade .SELL "AAPL" 8 0 0
        { cash := 10000, watchlist := [{ symbol := "AAPL", price := 170 }],
          holdings := [("AAPL", { qty := 10, avg := 150 })], history := [],
          settings := { refreshSecs := 8 } }).1.history =
      [mkTradeRecord .SELL "AAPL" 8 170 0 0] ∧
    (doTrade .SELL "AAPL" 8 0 0
        { cash := 10000, watchlist := [{ symbol := "AAPL", price := 170 }],
          holdings := [("AAPL", { qty := 10, avg := 150 })], history := [],
          settings := { refreshSecs := 8 } }).2 = none := by
  have h := c4_sell_success
    { cash := 10000, watchlist := [{ symbol := "AAPL", price := 170 }],
      holdings := [("AAPL", { qty := 10, avg := 150 })], history := [],
      settings := { refreshSecs := 8 } }
    "AAPL" 8 170 { qty := 10, avg := 150 } 0 0
    (by decide) (by norm_num) (by decide) (by norm_num)
  exact h

end PaperTrader

namespace PaperTrader

/-! ### The cash / price invariant (C5) -/

/-- The state invariant maintained by every operation: cash is
non-negative and every live watchlist price is at least 1. -/
def Inv (st : AppState) : Prop :=
  0 ≤ st.cash ∧ ∀ w ∈ st.watchlist, 1 ≤ w.price

theorem priceMapFrom_mem (wl : List WatchItem) (s : String) (p : ℚ)
    (h : priceMapFrom wl s = some p) : ∃ w ∈ wl, w.price = p := by
  unfold priceMapFrom at h
  rw [Option.map_eq_some'] at h
  obtain ⟨w, hw, rfl⟩ := h
  exact ⟨w, List.mem_reverse.mp (List.mem_of_find?_eq_some hw), rfl⟩

theorem drift_ge_one (p v rand : ℚ) (hp : 1 ≤ p) : 1 ≤ driftPrice p v rand := by
  simp only [driftPrice, clamp]
  refine le_min (le_trans (le_max_left 1 _) (le_max_right _ _)) ?_
  nlinarith

theorem snd_mem_of_mem_enumFrom {α : Type _} (l : List α) (n : ℕ) (pr : ℕ × α)
    (h : pr ∈ l.enumFrom n) : pr.2 ∈ l := by
  induction l generalizing n with
  | nil => simp [List.enumFrom] at h
  | cons a t ih =>
    simp only [List.enumFrom, List.mem_cons] at h
    rcases h with h | h
    · simp [h]
    · exact List.mem_cons_of_mem _ (ih _ h)

theorem snd_mem_of_mem_enum {α : Type _} (l : List α) (pr : ℕ × α)
    (h : pr ∈ l.enum) : pr.2 ∈ l :=
  snd_mem_of_mem_enumFrom l 0 pr h

theorem doTrade_inv (side : Side) (symbol : String) (q : ℤ) (time : ℕ) (rand : ℚ)
    (st : AppState) (hInv : Inv st) (hq : 1 ≤ q) :
    Inv (doTrade side symbol q time rand st).1 := by
  obtain ⟨hcash, hwl⟩ := hInv
  cases hpm : priceMapFrom st.watchlist symbol with
  | none => simpa [doTrade, hpm, Inv] using ⟨hcash, hwl⟩
  | some p =>
    obtain ⟨w, hwmem, hwp⟩ := priceMapFrom_mem _ _ _ hpm
    have hp1 : (1:ℚ) ≤ p := hwp ▸ hwl w hwmem
    have hp0 : p ≠ 0 := by linarith
    have hq1 : (1:ℚ) ≤ (q : ℚ) := by exact_mod_cast hq
    cases side with
    | BUY =>
      by_cases hc : st.cash < (q : ℚ) * p
      · simpa [doTrade, hpm, hp0, hc, Inv] using ⟨hcash, hwl⟩
      · simp only [doTrade, hpm, Option.getD_some, if_neg hp0, if_neg hc, ite_false, Inv]
        constructor
        · have := not_lt.mp hc
          linarith
        · simpa using hwl
    | SELL =>
      cases hl : lookupPos st.holdings symbol with
      | none => simpa [doTrade, hpm, hp0, hl, Inv] using ⟨hcash, hwl⟩
      | some h' =>
        by_cases hlt : h'.qty < q
        · simpa [doTrade, hpm, hp0, hl, hlt, Inv] using ⟨hcash, hwl⟩
        · simp only [doTrade, hpm, Option.getD_some, if_neg hp0, hl, if_neg hlt,
            ite_false, Inv]
          constructor
          · have hqp : (0:ℚ) ≤ (q : ℚ) * p := by nlinarith
            linarith
          · simpa using hwl

theorem tick_inv (rands : ℕ → ℚ) (st : AppState) (hInv : Inv st) :
    Inv (tick rands st) := by
  obtain ⟨hcash, hwl⟩ := hInv
  refine ⟨hcash, ?_⟩
  intro w hw
  simp only [tick, List.mem_map] at hw
  obtain ⟨pr, hpr, rfl⟩ := hw
  exact drift_ge_one _ _ _ (hwl _ (snd_mem_of_mem_enum _ _ hpr))

theorem addSymbolToWatch_inv (s : String) (rand : ℚ) (st : AppState)
    (hInv : Inv st) (hr : 0 ≤ rand) : Inv (addSymbolToWatch s rand st) := by
  obtain ⟨hcash, hwl⟩ := hInv
  simp only [addSymbolToWatch]
  split
  · exact ⟨hcash, hwl⟩
  · split
    · exact ⟨hcash, hwl⟩
    · refine ⟨hcash, ?_⟩
      intro w hw
      rcases List.mem_cons.mp hw with h | h
      · subst h
        have h200 : (0:ℚ) ≤ rand * 200 := by nlinarith
        show (1:ℚ) ≤ 100 + rand * 200
        linarith
      · exact hwl w h

theorem removeSymbol_inv (s : String) (st : AppState) (hInv : Inv st) :
    Inv (removeSymbol s st) := by
  obtain ⟨hcash, hwl⟩ := hInv
  exact ⟨hcash, fun w hw => hwl w (List.mem_of_mem_filter hw)⟩

theorem initialState_inv (seed : ℕ → ℚ) (hseed : ∀ i, 0 ≤ seed i) :
    Inv (initialState seed) := by
  constructor
  · norm_num [initialState]
  · intro w hw
    simp only [initialState, List.mem_map] at hw
    obtain ⟨pr, hpr, rfl⟩ := hw
    have h0 := hseed pr.1
    have : (0:ℚ) ≤ seed pr.1 * 200 := by nlinarith
    simp only []
    linarith

theorem applyOp_inv (seed : ℕ → ℚ) (st : AppState) (op : Op)
    (hseed : ∀ i, 0 ≤ seed i) (hInv : Inv st) (hop : op.Valid) :
    Inv (applyOp seed st op) := by
  cases op with
  | buy s q t r => exact doTrade_inv _ _ _ _ _ _ hInv hop.1
  | sell s q t r => exact doTrade_inv _ _ _ _ _ _ hInv hop.1
  | tick rands => exact tick_inv _ _ hInv
  | addSym s r => exact addSymbolToWatch_inv _ _ _ hInv hop.1
  | removeSym s => exact removeSymbol_inv _ _ hInv
  | reset => exact initialState_inv _ hseed

/-- C5: starting from the initial state (cash 10000) and applying any
sequence of buys, sells, price ticks, watchlist edits, and resets
(trade quantities being the sanitised `q ≥ 1`, all random draws in
`[0, 1)`, rejected trades leaving the state unchanged inside
`doTrade`), the cash balance is non-negative after every operation —
in particular `cash ≥ 0` holds in the state any such sequence
reaches. -/
theorem c5_cash_nonneg (seed : ℕ → ℚ) (ops : List Op)
    (hseed : ∀ i, 0 ≤ seed i) (hops : ∀ op ∈ ops, op.Valid) :
    0 ≤ (runOps seed ops).cash := by
  suffices h : ∀ l : List Op, (∀ op ∈ l, op.Valid) → ∀ st : AppState, Inv st →
      Inv (l.foldl (applyOp seed) st) by
    exact (h ops hops _ (initialState_inv seed hseed)).1
  intro l
  induction l with
  | nil => intro _ st hst; simpa using hst
  | cons op rest ih =>
    intro hl st hst
    simp only [List.foldl_cons]
    exact ih (fun o ho => hl o (List.mem_cons_of_mem _ ho))
      _ (applyOp_inv seed st op hseed hst (hl op (List.mem_cons_self op rest)))

/-- Witness for C5: a concrete run with a buy, a sell, a tick, a
watchlist edit and a reset keeps cash non-negative. -/
theorem c5_cash_nonneg_witness :
    0 ≤ (runOps (fun _ => 1/2)
      [Op.buy "AAPL" 10 0 0, Op.sell "AAPL" 10 1 (1/2),
       Op.tick (fun _ => 1/4), Op.addSym "IBM" (1/2),
       Op.removeSym "TSLA", Op.reset]).cash := by
  refine c5_cash_nonneg (fun _ => 1/2) _ (fun i => by norm_num) ?_
  intro op hop
  simp only [List.mem_cons, List.not_mem_nil, or_false] at hop
  rcases hop with rfl | rfl | rfl | rfl | rfl | rfl <;>
    simp only [Op.Valid] <;> norm_num

end PaperTrader

namespace PaperTrader

/-! ### Drift bounds (C6) -/

theorem drift_ge_lo (p v rand : ℚ) (hp : 0 ≤ p) :
    p * (85/100) ≤ driftPrice p v rand := by
  simp only [driftPrice, clamp]
  refine le_min (le_trans (le_max_right 1 _) (le_max_right _ _)) ?_
  nlinarith

theorem drift_le_hi (p v rand : ℚ) : driftPrice p v rand ≤ p * (115/100) := by
  simp only [driftPrice, clamp]
  exact min_le_right _ _

/-- C6 (counterexample): the claim quantifies over every positive
price, but for the positive price `1/2` (with the default volatility
`0.015` and the valid `Math.random()` draw `1/2`) the clamp bounds
cross — `max(1, 0.85·p) > 1.15·p` — and `driftPrice` returns
`1.15 · (1/2) = 0.575 < 1`, so the result is below 1. -/
theorem c6_counterexample :
    (0:ℚ) < 1/2 ∧ (0:ℚ) ≤ (1:ℚ)/2 ∧ ((1:ℚ)/2) < 1 ∧
    driftPrice ((1:ℚ)/2) ((15:ℚ)/1000) ((1:ℚ)/2) = 23/40 ∧
    driftPrice ((1:ℚ)/2) ((15:ℚ)/1000) ((1:ℚ)/2) < 1 := by
  refine ⟨by norm_num, by norm_num, by norm_num, ?_, ?_⟩ <;>
    norm_num [driftPrice, clamp, max_def, min_def]

/-- C6 (amended): for every price `p ≥ 1` (all prices the app ever
holds are ≥ 1), volatility fraction `v ≥ 0` and draw `rand ∈ [0, 1)`,
`driftPrice p v rand` equals `p * (1 + u)` for `u = (2·rand − 1)·v ∈
[−v, +v]` clamped to `[max(1, 0.85·p), 1.15·p]`; the result is never
below 1 and never more than ±15% from the previous price; in
particular `driftPrice 100 0.015 rand` always lies in `[85, 115]` and
is never ≤ 0.  (For `0 < p < 1/1.15` the "never below 1" part fails,
see the counterexample.) -/
theorem c6_drift_bounds (p v rand : ℚ) (hp : 1 ≤ p) (hv : 0 ≤ v)
    (hr0 : 0 ≤ rand) (hr1 : rand < 1) :
    driftPrice p v rand
      = clamp (p * (1 + (rand * 2 - 1) * v)) (max 1 (p * (85/100))) (p * (115/100)) ∧
    -v ≤ (rand * 2 - 1) * v ∧ (rand * 2 - 1) * v ≤ v ∧
    1 ≤ driftPrice p v rand ∧
    p * (85/100) ≤ driftPrice p v rand ∧
    driftPrice p v rand ≤ p * (115/100) ∧
    (85:ℚ) ≤ driftPrice 100 ((15:ℚ)/1000) rand ∧
    driftPrice 100 ((15:ℚ)/1000) rand ≤ 115 ∧
    0 < driftPrice 100 ((15:ℚ)/1000) rand := by
  have hlo100 : (85:ℚ) ≤ driftPrice 100 ((15:ℚ)/1000) rand := by
    have := drift_ge_lo 100 ((15:ℚ)/1000) rand (by norm_num)
    linarith
  have hhi100 : driftPrice 100 ((15:ℚ)/1000) rand ≤ 115 := by
    have := drift_le_hi 100 ((15:ℚ)/1000) rand
    linarith
  refine ⟨rfl, by nlinarith, by nlinarith, drift_ge_one p v rand hp,
    drift_ge_lo p v rand (by linarith), drift_le_hi p v rand,
    hlo100, hhi100, by linarith⟩

/-- Witness for C6 (amended) at `p = 100`, `v = 0.015`, `rand = 1/2`. -/
theorem c6_drift_bounds_witness :
    driftPrice 100 ((15:ℚ)/1000) ((1:ℚ)/2)
      = clamp (100 * (1 + ((1:ℚ)/2 * 2 - 1) * ((15:ℚ)/1000)))
          (max 1 (100 * (85/100))) (100 * (115/100)) ∧
    -((15:ℚ)/1000) ≤ ((1:ℚ)/2 * 2 - 1) * ((15:ℚ)/1000) ∧
    ((1:ℚ)/2 * 2 - 1) * ((15:ℚ)/1000) ≤ (15:ℚ)/1000 ∧
    1 ≤ driftPrice 100 ((15:ℚ)/1000) ((1:ℚ)/2) ∧
    (100:ℚ) * (85/100) ≤ driftPrice 100 ((15:ℚ)/1000) ((1:ℚ)/2) ∧
    driftPrice 100 ((15:ℚ)/1000) ((1:ℚ)/2) ≤ 100 * (115/100) ∧
    (85:ℚ) ≤ driftPrice 100 ((15:ℚ)/1000) ((1:ℚ)/2) ∧
    driftPrice 100 ((15:ℚ)/1000) ((1:ℚ)/2) ≤ 115 ∧
    0 < driftPrice 100 ((15:ℚ)/1000) ((1:ℚ)/2) :=
  c6_drift_bounds 100 ((15:ℚ)/1000) ((1:ℚ)/2) (by norm_num) (by norm_num)
    (by norm_num) (by norm_num)

/-- C7: `loadState` returns the default initial state when the stored
blob is absent or unparseable (the fault is swallowed into a normal
return, never propagated), and otherwise shallow-merges the parsed
object over the defaults, so every missing top-level key falls back to
its default; in particular a blob missing the `settings` key loads
with `settings.refreshSecs = 8`. -/
theorem c7_loadState (seed : ℕ → ℚ) (p : ParsedBlob) :
    loadState seed .absent = initialState seed ∧
    loadState seed .unparseable = initialState seed ∧
    (loadState seed (.parsed p)).cash = p.cash?.getD 10000 ∧
    (loadState seed (.parsed p)).watchlist
      = p.watchlist?.getD (initialState seed).watchlist ∧
    (loadState seed (.parsed p)).holdings = p.holdings?.getD [] ∧
    (loadState seed (.parsed p)).history = p.history?.getD [] ∧
    (loadState seed (.parsed p)).settings = p.settings?.getD { refreshSecs := 8 } ∧
    (loadState seed (.parsed { p with settings? := none })).settings.refreshSecs = 8 := by
  refine ⟨rfl, rfl, rfl, rfl, rfl, rfl, rfl, rfl⟩

end PaperTrader

namespace PaperTrader

/-- C8 (code bug, evaluated at the failing input): for the non-numeric
quantity input `"abc"`, the sanitised quantity
`Math.max(1, Math.floor(parseInt(qty || '1', 10)))` is `NaN` — not an
integer clamped to at least 1 — and the BUY guard `cost > cash`
evaluates to `false` on the `NaN` cost (price 150, cash 10000), so the
trade is not rejected and executes with a `NaN` quantity.  Numeric
inputs are sanitised as the claim says: `""` → 1, `"3"` → 3,
`"2.9"` → 2, `"-5"` → 1. -/
theorem c8_nan_quantity_not_rejected :
    tradeQty "abc" = none ∧
    jsGt (jsMul (tradeQty "abc") (some 150)) (some 10000) = false ∧
    tradeQty "" = some 1 ∧
    tradeQty "3" = some 3 ∧
    tradeQty "2.9" = some 2 ∧
    tradeQty "-5" = some 1 := by
  refine ⟨rfl, rfl, ?_, ?_, ?_, ?_⟩ <;> decide

/-- Two successive BUY trades in the same millisecond
(`Date.now() = 0`) with the same `Math.random()` draw `1/2`. -/
def twoSameMsBuys : AppState :=
  (doTrade .BUY "AAPL" 1 0 ((1:ℚ)/2)
    (doTrade .BUY "AAPL" 1 0 ((1:ℚ)/2)
      { cash := 10000, watchlist := [{ symbol := "AAPL", price := 100 }],
        holdings := [], history := [],
        settings := { refreshSecs := 8 } }).1).1

/-- C9 (the code evaluated at the failing input): two BUY trades
executed in the same millisecond (`Date.now() = 0`) whose
`Math.random()` draws are both the valid value `1/2` produce two
history records with the same id `0 + 1/2`, so the ids in history are
not all distinct — `String(Date.now() + Math.random())` does not
guarantee uniqueness within a millisecond, contrary to the spec's
requirement (which asks for a monotonic counter or similar). -/
theorem c9_counterexample :
    twoSameMsBuys.history.map TradeRecord.id
      = [tradeId 0 ((1:ℚ)/2), tradeId 0 ((1:ℚ)/2)] ∧
    ¬ (twoSameMsBuys.history.map TradeRecord.id).Nodup ∧
    (0:ℚ) ≤ 1/2 ∧ ((1:ℚ)/2) < 1 := by
  have h : twoSameMsBuys.history.map TradeRecord.id
      = [tradeId 0 ((1:ℚ)/2), tradeId 0 ((1:ℚ)/2)] := by
    norm_num [twoSameMsBuys, doTrade, priceMapFrom, lookupPos, setPos,
      mkTradeRecord, List.find?]
  refine ⟨h, ?_, by norm_num, by norm_num⟩
  rw [h]
  simp [tradeId]

/-! ### Equity lemmas (C10) -/

theorem equity_shift (pm : String → Option ℚ) (l : Holdings) (a : ℚ) :
    l.foldl (fun sum e => sum + (e.2.qty : ℚ) * (pm e.1).getD 0) a
      = a + l.foldl (fun sum e => sum + (e.2.qty : ℚ) * (pm e.1).getD 0) 0 := by
  induction l generalizing a with
  | nil => simp
  | cons e rest ih =>
    simp only [List.foldl_cons]
    rw [ih (a + (e.2.qty : ℚ) * (pm e.1).getD 0), ih (0 + (e.2.qty : ℚ) * (pm e.1).getD 0)]
    ring

theorem equity_cons (e : String × Position) (rest : Holdings)
    (pm : String → Option ℚ) :
    equity (e :: rest) pm = (e.2.qty : ℚ) * (pm e.1).getD 0 + equity rest pm := by
  simp only [equity, List.foldl_cons]
  rw [equity_shift pm rest (0 + (e.2.qty : ℚ) * (pm e.1).getD 0)]
  ring

theorem equity_erase_of_missing (holdings : Holdings)
    (pm : String → Option ℚ) (sym : String) (hmap : pm sym = none) :
    equity holdings pm = equity (erasePos holdings sym) pm := by
  induction holdings with
  | nil => rfl
  | cons e rest ih =>
    by_cases he : e.1 = sym
    · have h0 : (pm e.1).getD 0 = 0 := by rw [he, hmap]; rfl
      have hdrop : erasePos (e :: rest) sym = erasePos rest sym := by
        simp [erasePos, List.filter_cons, he]
      rw [hdrop, ← ih, equity_cons, h0]
      ring
    · have hkeep : erasePos (e :: rest) sym = e :: erasePos rest sym := by
        simp [erasePos, List.filter_cons, he]
      rw [hkeep, equity_cons, equity_cons, ih]

/-- C10: for a symbol that has a position but no entry in the price
map, `pnlForSymbol` treats the last price as 0 and returns
`pnl = -avg·qty` and `change = -1` when `avg > 0` (not `(0, 0)`), and
the `equity` aggregation values that position at 0 (removing it from
the holdings does not change the equity sum). -/
theorem c10_missing_price (sym : String) (holdings : Holdings)
    (priceMap : String → Option ℚ) (h : Position)
    (hh : lookupPos holdings sym = some h)
    (hmap : priceMap sym = none)
    (ha : 0 < h.avg) :
    pnlForSymbol sym holdings priceMap = (-(h.avg * (h.qty : ℚ)), -1) ∧
    equity holdings priceMap = equity (erasePos holdings sym) priceMap := by
  have hne : h.avg ≠ 0 := ne_of_gt ha
  constructor
  · simp only [pnlForSymbol, hh, hmap, Option.getD_none, if_neg hne, Prod.mk.injEq]
    constructor
    · ring
    · rw [zero_sub, neg_div, div_self hne]
  · exact equity_erase_of_missing holdings priceMap sym hmap

/-- Witness for C10: a position of 5 shares at average cost 10 whose
symbol is absent from the price map. -/
theorem c10_missing_price_witness :
    pnlForSymbol "GONE" [("GONE", { qty := 5, avg := 10 })] (fun _ => none)
      = (-((10:ℚ) * ((5:ℤ) : ℚ)), -1) ∧
    equity [("GONE", { qty := 5, avg := 10 })] (fun _ => none)
      = equity (erasePos [("GONE", { qty := 5, avg := 10 })] "GONE") (fun _ => none) := by
  have h := c10_missing_price "GONE" [("GONE", { qty := 5, avg := 10 })]
    (fun _ => none) { qty := 5, avg := 10 } rfl rfl (by norm_num)
  exact h

end PaperTrader
